import Mathlib

/-!
A verification development for the Todoist-Voice-HA-Integration component: a
shallow embedding, in Lean, of the conversational task-creation engine and its
parsing collaborators, together with theorems about the embedded code.

Source mapping:
- custom_components/todoist_voice_ha/todoist_client.py:
  find_matching_projects, extract_actions, parse_due_date, validate_priority,
  export_to_todoist, and the constants they read (const.py: DATE_PATTERNS,
  ACTION_PATTERNS, DEFAULT_PRIORITY, DEFAULT_LABELS, PRIORITY_LEVELS,
  ERROR_MESSAGES).
- custom_components/todoist_voice_ha/conversation_engine.py:
  ConversationEngine (start_conversation, continue_conversation,
  get_conversation_status, cleanup and the active-conversation map) and
  ConversationContext (process_input and the per-state handlers).

Modelling conventions: machine time is a Nat of days since 1970-01-01 for
dates and a Nat of seconds for conversation expiry; the remote project/task
creation calls and their HomeAssistantError exceptions are oracle functions
returning Except; the external dateutil free-text parser is an oracle whose
failures carry a Python exception type (PyExn: ValueError, TypeError,
OverflowError), so that the source's except (ValueError, TypeError) clause
can be embedded exactly — an uncaught exception type escapes parse_due_date
as an Except.error; Python regular-expression rules are embedded as per-line
character-list functions; Python set insertion is an insertion-ordered
deduplicating list; the stable list.sort(key=match_score, reverse=True) is a
stable insertion sort.
-/

namespace TodoistVoiceHA

/-- Python whitespace characters recognised by str.strip(). -/
def isPySpace (c : Char) : Bool :=
  c = ' ' ∨ c = '\t' ∨ c = '\n' ∨ c = '\r' ∨ c = '\x0b' ∨ c = '\x0c'

def dropTrailingWhile (p : Char → Bool) (l : List Char) : List Char :=
  (l.reverse.dropWhile p).reverse

/-- Python str.strip(). -/
def pyStrip (s : String) : String :=
  String.mk (dropTrailingWhile isPySpace (s.data.dropWhile isPySpace))

/-- Python str.lower() (ASCII model). -/
def pyLower (s : String) : String :=
  String.mk (s.data.map Char.toLower)

/-- Python `needle in hay` substring membership, on char lists. -/
def listInfix (sub : List Char) : List Char → Bool
  | [] => sub.isEmpty
  | c :: t => sub.isPrefixOf (c :: t) || listInfix sub t

/-- Python `needle in hay` substring membership. -/
def strContains (hay needle : String) : Bool :=
  listInfix needle.data hay.data

/-- Python hay.startswith(needle). -/
def strStartsWith (hay needle : String) : Bool :=
  needle.data.isPrefixOf hay.data

/-- Days-since-epoch weekday, Monday = 0 (1970-01-01 was a Thursday). -/
def weekday (d : Nat) : Nat := (d + 3) % 7

def pad2 (n : Nat) : String := if n < 10 then "0" ++ toString n else toString n

def pad4 (n : Nat) : String :=
  if n < 10 then "000" ++ toString n
  else if n < 100 then "00" ++ toString n
  else if n < 1000 then "0" ++ toString n
  else toString n

/-- Civil date from days since 1970-01-01 (proleptic Gregorian calendar). -/
def civilFromDays (z0 : Nat) : Nat × Nat × Nat :=
  let z := z0 + 719468
  let era := z / 146097
  let doe := z % 146097
  let yoe := (doe - doe / 1460 + doe / 36524 - doe / 146096) / 365
  let y := yoe + era * 400
  let doy := doe - (365 * yoe + yoe / 4 - yoe / 100)
  let mp := (5 * doy + 2) / 153
  let d := doy - (153 * mp + 2) / 5 + 1
  let m := if mp < 10 then mp + 3 else mp - 9
  (if m ≤ 2 then y + 1 else y, m, d)

/-- Python date.isoformat() for a days-since-epoch date. -/
def isoformat (days : Nat) : String :=
  let c := civilFromDays days
  pad4 c.1 ++ "-" ++ pad2 c.2.1 ++ "-" ++ pad2 c.2.2

def DATE_PATTERNS : List (String × Nat) :=
  [("today", 0), ("tomorrow", 1), ("this week", 7), ("next week", 14)]

def lookupAssoc (l : List (String × Nat)) (k : String) : Option Nat :=
  (l.find? (fun p => p.1 == k)).map (fun p => p.2)

def digitsToNat (l : List Char) : Nat :=
  l.foldl (fun a c => a * 10 + (c.toNat - 48)) 0

def matchInDays (s : String) : Option Nat :=
  match s.data with
  | 'i' :: 'n' :: ' ' :: rest =>
    let ds := rest.takeWhile Char.isDigit
    let rest2 := rest.dropWhile Char.isDigit
    if ds ≠ [] ∧ (" day".data).isPrefixOf rest2 then some (digitsToNat ds) else none
  | _ => none

def day_names : List String :=
  ["monday", "tuesday", "wednesday", "thursday", "friday", "saturday", "sunday"]

def findDayName (s : String) : Option Nat :=
  day_names.findIdx? (fun d => strContains s d)

def isIsoShape (s : String) : Bool :=
  match s.data with
  | [a, b, c, d, '-', e, f, '-', g, h] =>
    a.isDigit && b.isDigit && c.isDigit && d.isDigit &&
    e.isDigit && f.isDigit && g.isDigit && h.isDigit
  | _ => false

/-- The normalised input of parse_due_date: the reassignment
date_input = date_input.lower().strip() at the head of the function. -/
def normInput (s : String) : String := pyStrip (pyLower s)

/-- The exceptions the free-text date library (dateutil.parser.parse plus the
datetime constructor it calls) can raise: ParserError is a ValueError;
OverflowError (a year beyond the C long range, e.g. a 20-digit numeric token)
is neither a ValueError nor a TypeError. -/
inductive PyExn where
  | valueError (msg : String)
  | typeError (msg : String)
  | overflowError (msg : String)
deriving DecidableEq, Repr

/-- Membership in the source's catch set: except (ValueError, TypeError). -/
def PyExn.isValueOrTypeError : PyExn → Bool
  | .valueError _ => true
  | .typeError _ => true
  | .overflowError _ => false

/-- Python str(err): the exception's message. -/
def PyExn.message : PyExn → String
  | .valueError m => m
  | .typeError m => m
  | .overflowError m => m

instance {ε α : Type} [DecidableEq ε] [DecidableEq α] : DecidableEq (Except ε α) :=
  fun a b =>
    match a, b with
    | .ok x, .ok y => decidable_of_iff (x = y) (by simp)
    | .error x, .error y => decidable_of_iff (x = y) (by simp)
    | .ok _, .error _ => isFalse (by simp)
    | .error _, .ok _ => isFalse (by simp)

/-- The body of parse_due_date after normalisation: the chain of resolution
tiers, on the already lower-cased and stripped input. The result is an Except:
an error value is an exception that escapes the function - the final tier
catches only ValueError and TypeError around the library call, so any other
library exception propagates. -/
def resolveDate (today : Nat) (dateutil : String → Except PyExn Nat)
    (s : String) : Except PyExn (Option String) :=
  match lookupAssoc DATE_PATTERNS s with
    | some days_to_add =>
      if days_to_add = 0 then .ok (some (isoformat today))
      else if days_to_add = 7 then .ok (some (isoformat (today + 4 - weekday today)))
      else if days_to_add = 14 then .ok (some (isoformat (today + 7 - weekday today)))
      else .ok (some (isoformat (today + days_to_add)))
    | none =>
      match matchInDays s with
      | some days => .ok (some (isoformat (today + days)))
      | none =>
        match findDayName s with
        | some i =>
          let wd := weekday today
          let days_ahead := if i ≤ wd then i + 7 - wd else i - wd
          .ok (some (isoformat (today + days_ahead)))
        | none =>
          if isIsoShape s then .ok (some s)
          else
            match dateutil s with
            | .ok d => .ok (some (isoformat d))
            | .error e => if e.isValueOrTypeError then .ok none else .error e

def parse_due_date (today : Nat) (dateutil : String → Except PyExn Nat)
    (date_input : String) : Except PyExn (Option String) :=
  if date_input = "" then .ok none
  else resolveDate today dateutil (normInput date_input)

structure Project where
  id : String
  name : String
deriving DecidableEq, Repr

structure ProjectMatch where
  id : String
  name : String
  match_score : Nat
  match_reason : String
deriving DecidableEq, Repr

def mkMatch (p : Project) (score : Nat) (reason : String) : ProjectMatch :=
  { id := p.id, name := p.name, match_score := score, match_reason := reason }

def hasId (ms : List ProjectMatch) (i : String) : Bool :=
  ms.any (fun m => m.id == i)

def appendAll (cond : Project → Bool) (score : Nat) (reason : String)
    (ps : List Project) (init : List ProjectMatch) : List ProjectMatch :=
  ps.foldl (fun ms p => if cond p then ms ++ [mkMatch p score reason] else ms) init

def appendNew (cond : Project → Bool) (score : Nat) (reason : String)
    (ps : List Project) (init : List ProjectMatch) : List ProjectMatch :=
  ps.foldl
    (fun ms p =>
      if cond p && !hasId ms p.id then ms ++ [mkMatch p score reason] else ms)
    init

def keyword_map : List (String × List String) :=
  [("shop", ["shopping", "shop", "store", "buy"]),
   ("work", ["work", "office", "job", "task"]),
   ("home", ["home", "house", "personal"]),
   ("food", ["food", "meal", "cook", "recipe", "dinner", "lunch"]),
   ("car", ["car", "vehicle", "auto", "drive"]),
   ("health", ["health", "doctor", "medical", "fitness"]),
   ("book", ["book", "read", "reading"]),
   ("movie", ["movie", "film", "watch", "entertainment"])]

def exactCond (ql : String) (p : Project) : Bool := pyLower p.name == ql

def startsCond (ql : String) (p : Project) : Bool := strStartsWith (pyLower p.name) ql

def containsCond (ql : String) (p : Project) : Bool := strContains (pyLower p.name) ql

def kwNameCond (kws : List String) (p : Project) : Bool :=
  kws.any (fun k => strContains (pyLower p.name) k)

/-- The keyword-category pass: for each category whose synonym set hits the
query, append the projects whose names hit the same synonym set. -/
def kwPass (ps : List Project) (ql : String) (cats : List (String × List String))
    (init : List ProjectMatch) : List ProjectMatch :=
  cats.foldl
    (fun ms ck =>
      if ck.2.any (fun k => strContains ql k) then
        appendNew (kwNameCond ck.2) 60 "keyword_match" ps ms
      else ms)
    init

/-- The query as find_matching_projects normalises it: query.lower().strip(). -/
def queryLower (query : String) : String := pyStrip (pyLower query)

/-- The four match tiers, on the already-normalised query. -/
def matchesRaw (ps : List Project) (ql : String) : List ProjectMatch :=
  let m1 := appendAll (exactCond ql) 100 "exact_match" ps []
  let m2 := appendNew (startsCond ql) 90 "starts_with" ps m1
  let m3 := appendNew (containsCond ql) 70 "contains" ps m2
  kwPass ps ql keyword_map m3

def insertDesc : List ProjectMatch → ProjectMatch → List ProjectMatch
  | [], x => [x]
  | y :: ys, x =>
    if y.match_score < x.match_score then x :: y :: ys else y :: insertDesc ys x

/-- Stable descending sort by match_score: the model of Python
list.sort(key=match_score, reverse=True). -/
def sortByScoreDesc (l : List ProjectMatch) : List ProjectMatch :=
  l.foldl insertDesc []

def find_matching_projects (ps : List Project) (query : String) : List ProjectMatch :=
  if query = "" || pyStrip query = "" then []
  else (sortByScoreDesc (matchesRaw ps (queryLower query))).take 5

def splitOnNl : List Char → List Char → List String
  | [], cur => [String.mk cur.reverse]
  | c :: rest, cur =>
    if c = '\n' then String.mk cur.reverse :: splitOnNl rest []
    else splitOnNl rest (c :: cur)

def splitLines (s : String) : List String := splitOnNl s.data []

def stripChars (l : List Char) : String := pyStrip (String.mk l)

/-- Rule 1: a bulleted line `\s*[-*•]\s*(.+?)`; the capture is stripped at once
downstream, so it is modelled as the stripped rest of the line. -/
def matchBullet (line : String) : Option String :=
  match line.data.dropWhile isPySpace with
  | c :: rest =>
    if c = '-' ∨ c = '*' ∨ c = '•' then some (stripChars rest) else none
  | [] => none

/-- Rule 2: a numbered line `\s*\d+\.\s*(.+?)`. -/
def matchNumbered (line : String) : Option String :=
  let l := line.data.dropWhile isPySpace
  let ds := l.takeWhile Char.isDigit
  match l.dropWhile Char.isDigit with
  | '.' :: rest => if ds ≠ [] then some (stripChars rest) else none
  | _ => none

/-- Rule 3: `\s*(?:TODO|Action|Task|Step)\s*:?\s*(.+?)`, case-insensitive. -/
def matchPrefixWord (line : String) : Option String :=
  let l := line.data.dropWhile isPySpace
  let low := l.map Char.toLower
  ["todo", "action", "task", "step"].findSome? (fun w =>
    if w.data.isPrefixOf low then
      let r1 := (l.drop w.length).dropWhile isPySpace
      let r2 := match r1 with
        | ':' :: t => t
        | _ => r1
      some (stripChars r2)
    else none)

def pattern_verbs : List String :=
  ["create", "build", "setup", "configure", "install", "update", "review",
   "analyze", "implement", "add", "remove", "fix", "test", "deploy", "write",
   "design", "plan", "research", "contact", "schedule", "book", "buy", "order",
   "call", "email", "send", "upload", "download", "backup", "delete", "archive",
   "organize", "clean", "prepare", "check", "verify", "validate", "monitor",
   "track", "document", "record", "report", "submit", "approve", "reject",
   "complete", "finish", "start", "begin", "launch", "stop", "pause", "resume",
   "cancel", "postpone", "reschedule"]

/-- Rule 4: an imperative-verb line `\s*(?:Create|...)\s+(.+?)`, case-insensitive. -/
def matchVerbStart (line : String) : Option String :=
  let l := line.data.dropWhile isPySpace
  let low := l.map Char.toLower
  pattern_verbs.findSome? (fun w =>
    if w.data.isPrefixOf low then
      match l.drop w.length with
      | c :: rest => if isPySpace c then some (stripChars rest) else none
      | [] => none
    else none)

/-- re.sub(r"^(that|to|and|or|but)\s+", "", action, IGNORECASE): drop one
leading filler word together with the whitespace run after it. -/
def stripFillerPrefix (a : String) : String :=
  match ["that", "to", "and", "or", "but"].findSome? (fun w =>
    if w.data.isPrefixOf (a.data.map Char.toLower) then
      match a.data.drop w.length with
      | c :: rest => if isPySpace c then some (String.mk (rest.dropWhile isPySpace)) else none
      | [] => none
    else none) with
  | some r => r
  | none => a

/-- re.sub(r"[.!?]+$", "", s): drop the trailing run of sentence punctuation. -/
def stripTrailingPunct (a : String) : String :=
  String.mk (dropTrailingWhile (fun c => c = '.' ∨ c = '!' ∨ c = '?') a.data)

def cleanAction (action : String) : String :=
  pyStrip (stripTrailingPunct (stripFillerPrefix action))

/-- Set insertion: Python's actions.add (insertion-ordered model of the set). -/
def setAdd (acc : List String) (s : String) : List String :=
  if acc.contains s then acc else acc ++ [s]

def addCandidate (acc : List String) (action : String) : List String :=
  if 3 < action.length ∧ action.length < 500 then
    let clean_action := cleanAction action
    if 3 < clean_action.length then setAdd acc clean_action else acc
  else acc

def action_verbs : List String :=
  ["create", "make", "build", "setup", "install", "configure",
   "update", "review", "analyze", "implement", "add", "remove",
   "fix", "test", "deploy", "write", "design", "plan", "research",
   "contact", "schedule", "book", "buy", "order", "call", "email", "send"]

/-- re.split(r"[.!?]\s+", text): split at punctuation followed by whitespace.
Only one whitespace char is consumed here; the rest is removed by the
strip() applied to every sentence downstream. -/
def splitSentAux : List Char → List Char → List (List Char)
  | [], cur => [cur.reverse]
  | [c], cur => [(c :: cur).reverse]
  | c :: d :: rest2, cur =>
    if c = '.' ∨ c = '!' ∨ c = '?' then
      if isPySpace d then cur.reverse :: splitSentAux rest2 []
      else splitSentAux (d :: rest2) (c :: cur)
    else splitSentAux (d :: rest2) (c :: cur)

def splitSentences (text : String) : List String :=
  (splitSentAux text.data []).map String.mk

def fallbackActions (text : String) : List String :=
  (splitSentences text).foldl
    (fun acc sent =>
      let sentence := pyStrip sent
      if 5 < sentence.length then
        if action_verbs.any (fun v => strStartsWith (pyLower sentence) v) then
          if sentence.length < 500 then setAdd acc sentence else acc
        else acc
      else acc)
    []

def extract_actions (text : String) : List String :=
  if text = "" then []
  else
    let lines := splitLines text
    let cands :=
      [matchBullet, matchNumbered, matchPrefixWord, matchVerbStart].flatMap
        (fun f => lines.filterMap f)
    let actions := cands.foldl addCandidate []
    if actions = [] then fallbackActions text else actions

/-- Python `str | None` input: `if not text` treats None like the empty string. -/
def extract_actions_opt : Option String → List String
  | none => []
  | some t => extract_actions t

structure Task where
  id : String
  content : String
deriving DecidableEq, Repr

structure TaskReq where
  content : String
  project_id : String
  parent_id : Option String
  priority : Nat
  due_date : Option String
  labels : List String
deriving DecidableEq, Repr

structure ExportSummary where
  total_actions : Nat
  successful : Nat
  failed : Nat
deriving DecidableEq, Repr

structure ExportResult where
  main_task : Task
  subtasks : List Task
  failures : List (String × String)
  summary : ExportSummary
deriving DecidableEq, Repr

structure Env where
  projects : List Project
  create_project : String → Except String Project
  create_task : TaskReq → Except String Task
  dateutil : String → Except PyExn Nat
  today : Nat

def validate_priority (p : Nat) : Nat := max 1 (min 4 p)

def mainTaskReq (env : Env) (project_id : String) (main_task_title : Option String)
    (priority : Nat) (due_date : Option String) (labels : List String) : TaskReq :=
  { content := main_task_title.getD ("Voice Tasks - " ++ isoformat env.today),
    project_id := project_id, parent_id := none,
    priority := validate_priority priority,
    due_date := due_date, labels := labels }

def subTaskReq (project_id parent : String) (priority : Nat) (action : String) : TaskReq :=
  { content := action, project_id := project_id, parent_id := some parent,
    priority := validate_priority priority, due_date := none, labels := [] }

def subtaskStep (env : Env) (project_id parent : String) (priority : Nat)
    (acc : List Task × List (String × String)) (action : String) :
    List Task × List (String × String) :=
  match env.create_task (subTaskReq project_id parent priority action) with
  | .ok t => (acc.1 ++ [t], acc.2)
  | .error e => (acc.1, acc.2 ++ [(action, e)])

def export_to_todoist (env : Env) (text : String) (project_id : String)
    (main_task_title : Option String) (priority : Nat) (due_date : Option String)
    (labels : List String) (auto_extract : Bool) (manual_actions : List String) :
    Except String ExportResult :=
  let actions := if auto_extract && text ≠ "" then extract_actions text else []
  let actions := if manual_actions ≠ [] then actions ++ manual_actions else actions
  if actions = [] then .error "No actions found in text"
  else
    match env.create_task (mainTaskReq env project_id main_task_title priority due_date labels) with
    | .error e => .error e
    | .ok main_task =>
      let sf := actions.foldl (subtaskStep env project_id main_task.id priority) ([], [])
      .ok { main_task := main_task, subtasks := sf.1, failures := sf.2,
            summary := { total_actions := actions.length,
                         successful := sf.1.length, failed := sf.2.length } }

structure ConfirmSummary where
  project : String
  due_date : String
  priority : String
  actions : List String
  action_count : Nat
deriving DecidableEq, Repr

structure TurnResult where
  message : Option String := none
  error : Option String := none
  actions : List String := []
  available_projects : List String := []
  matches_brief : List (String × Nat) := []
  confirm_action : Option String := none
  project_name : Option String := none
  project : Option String := none
  examples : List String := []
  summary : Option ConfirmSummary := none
  result : Option ExportResult := none
deriving DecidableEq, Repr

structure ConversationContext where
  conversation_id : String
  timeout : Nat
  created_at : Nat
  expires_at : Nat
  state : String
  original_text : String
  parsed_actions : List String
  project_matches : List ProjectMatch
  selected_project : Option Project
  pending_due_date : Option String
  task_priority : Nat
  labels : List String
  context : List (String × String)
  error_message : Option String
  last_input : String
deriving DecidableEq, Repr

def newContext (conversation_id : String) (now : Nat) (timeout : Nat)
    (initial_context : List (String × String)) : ConversationContext :=
  { conversation_id := conversation_id, timeout := timeout, created_at := now,
    expires_at := now + timeout, state := "idle", original_text := "",
    parsed_actions := [], project_matches := [], selected_project := none,
    pending_due_date := none, task_priority := 3, labels := ["voice", "ha"],
    context := initial_context, error_message := none, last_input := "" }

def is_expired (now : Nat) (ctx : ConversationContext) : Bool :=
  ctx.expires_at < now

def dictSet (d : List (String × String)) (k v : String) : List (String × String) :=
  if d.any (fun p => p.1 == k) then
    d.map (fun p => if p.1 == k then (k, v) else p)
  else d ++ [(k, v)]

def dictGet (d : List (String × String)) (k : String) : Option String :=
  (d.find? (fun p => p.1 == k)).map (fun p => p.2)

def update_context (ctx : ConversationContext) (c : List (String × String)) :
    ConversationContext :=
  { ctx with context := c.foldl (fun d kv => dictSet d kv.1 kv.2) ctx.context }

def priorityLabel (p : Nat) : String :=
  if p = 1 then "Very High" else if p = 2 then "High"
  else if p = 3 then "Medium" else if p = 4 then "Low" else "Medium"

def matchToProject (m : ProjectMatch) : Project := { id := m.id, name := m.name }

def _extract_project_hints (text : String) : List String :=
  ["project", "list", "tasks", "shopping", "work", "home", "personal"].filter
    (fun k => strContains (pyLower text) k)

def _extract_date_hints (text : String) : List String :=
  ["today", "tomorrow", "monday", "tuesday", "wednesday", "thursday", "friday",
   "saturday", "sunday", "this week", "next week"].filter
    (fun k => strContains (pyLower text) k)

def noneSubscript : String := "NoneType object is not subscriptable"

def _prepare_confirmation (ctx : ConversationContext) :
    ConversationContext × Except String TurnResult :=
  let ctx := { ctx with state := "confirmation" }
  let due_date_str := match ctx.pending_due_date with
    | none => "No due date"
    | some d => d
  match ctx.selected_project with
  | none => (ctx, .error noneSubscript)
  | some p =>
    (ctx, .ok { message := some "Ready to create tasks. Please confirm:",
                summary := some { project := p.name, due_date := due_date_str,
                                  priority := priorityLabel ctx.task_priority,
                                  actions := ctx.parsed_actions,
                                  action_count := ctx.parsed_actions.length },
                confirm_action := some "create_tasks" })

def _ask_for_date (ctx : ConversationContext) :
    ConversationContext × Except String TurnResult :=
  let ctx := { ctx with state := "date_input" }
  match ctx.selected_project with
  | none => (ctx, .error noneSubscript)
  | some p =>
    (ctx, .ok { message := some "When should these tasks be due? (e.g., 'today', 'tomorrow', 'next week', or leave blank for no due date)",
                actions := ctx.parsed_actions, project := some p.name })

def _process_date_extraction (env : Env) (ctx : ConversationContext) (text : String) :
    ConversationContext × Except String TurnResult :=
  match _extract_date_hints text with
  | h :: _ =>
    (match parse_due_date env.today env.dateutil h with
     | .ok (some d) => _prepare_confirmation { ctx with pending_due_date := some d }
     | .ok none => _ask_for_date ctx
     | .error e => (ctx, .error e.message))
  | [] => _ask_for_date ctx

def _process_initial_input (env : Env) (ctx : ConversationContext) (text : String) :
    ConversationContext × Except String TurnResult :=
  let ctx := { ctx with original_text := text, state := "processing",
                        parsed_actions := extract_actions text }
  if ctx.parsed_actions = [] then
    let ctx := { ctx with state := "error",
                          error_message := some "No actions found in text" }
    (ctx, .ok { error := ctx.error_message })
  else
    let ctx := match _extract_project_hints text with
      | [] => ctx
      | h :: _ => { ctx with project_matches := find_matching_projects env.projects h }
    if ctx.project_matches = [] then
      let ctx := { ctx with state := "project_selection" }
      (ctx, .ok { message := some ("Found " ++ toString ctx.parsed_actions.length ++ " actions. Which project should I use?"),
                  actions := ctx.parsed_actions,
                  available_projects := env.projects.map (fun p => p.name) })
    else if ctx.project_matches.length = 1 then
      let ctx := { ctx with
        selected_project := (ctx.project_matches.head?).map matchToProject }
      _process_date_extraction env ctx text
    else
      let ctx := { ctx with state := "project_selection" }
      (ctx, .ok { message := some ("Found " ++ toString ctx.parsed_actions.length ++ " actions. Found multiple project matches:"),
                  actions := ctx.parsed_actions,
                  matches_brief := ctx.project_matches.map (fun m => (m.name, m.match_score)) })

def _process_project_selection (env : Env) (ctx : ConversationContext) (text : String) :
    ConversationContext × Except String TurnResult :=
  let direct := env.projects.find? (fun p => pyLower p.name == pyLower text)
  let selected : Option Project := match direct with
    | some p => some p
    | none =>
      (ctx.project_matches.find? (fun (m : ProjectMatch) => pyLower m.name == pyLower text)).map
        matchToProject
  match selected with
  | some p =>
    _process_date_extraction env { ctx with selected_project := some p } ctx.original_text
  | none =>
    let notFound : ConversationContext × Except String TurnResult :=
      (ctx, .ok { error := some "Project not found. Please select from available projects or say 'create [project name]'",
                  available_projects := env.projects.map (fun p => p.name) })
    if strStartsWith (pyLower text) "create" then
      let project_name := pyStrip (String.mk (text.data.drop 6))
      if project_name ≠ "" then
        let ctx := { ctx with
          context := dictSet ctx.context "new_project_name" project_name,
          state := "project_creation" }
        (ctx, .ok { message := some ("Create new project '" ++ project_name ++ "'?"),
                    confirm_action := some "create_project",
                    project_name := some project_name })
      else notFound
    else notFound

def _process_project_creation (env : Env) (ctx : ConversationContext) (text : String) :
    ConversationContext × Except String TurnResult :=
  if ["yes", "y", "create", "confirm"].contains (pyLower text) then
    match dictGet ctx.context "new_project_name" with
    | none =>
      let ctx := { ctx with state := "error",
                            error_message := some "Project name not found" }
      (ctx, .ok { error := ctx.error_message })
    | some project_name =>
      if project_name = "" then
        let ctx := { ctx with state := "error",
                              error_message := some "Project name not found" }
        (ctx, .ok { error := ctx.error_message })
      else
        match env.create_project project_name with
        | .ok new_project =>
          _process_date_extraction env { ctx with selected_project := some new_project }
            ctx.original_text
        | .error e =>
          let ctx := { ctx with state := "error",
                                error_message := some ("Failed to create project: " ++ e) }
          (ctx, .ok { error := ctx.error_message })
  else if ["no", "n", "cancel", "abort"].contains (pyLower text) then
    let ctx := { ctx with state := "project_selection" }
    (ctx, .ok { message := some "Project creation cancelled. Which existing project should I use?",
                available_projects := env.projects.map (fun p => p.name) })
  else
    (ctx, .ok { error := some "Please respond with 'yes' to create the project or 'no' to cancel",
                confirm_action := some "create_project",
                project_name := dictGet ctx.context "new_project_name" })

def _process_date_input (env : Env) (ctx : ConversationContext) (text : String) :
    ConversationContext × Except String TurnResult :=
  if ["none", "no", "skip", "blank", ""].contains (pyLower text) then
    _prepare_confirmation { ctx with pending_due_date := none }
  else
    match parse_due_date env.today env.dateutil text with
    | .error e => (ctx, .error e.message)
    | .ok none =>
      (ctx, .ok { error := some "Could not parse date. Please try again or say 'none' for no due date",
                  examples := ["today", "tomorrow", "next week", "2024-01-15", "none"] })
    | .ok (some d) => _prepare_confirmation { ctx with pending_due_date := some d }

def _process_confirmation (env : Env) (ctx : ConversationContext) (text : String) :
    ConversationContext × Except String TurnResult :=
  if ["yes", "y", "create", "confirm", "do it"].contains (pyLower text) then
    let ctx := { ctx with state := "creating_task" }
    match ctx.selected_project with
    | none => (ctx, .error noneSubscript)
    | some p =>
      match export_to_todoist env ctx.original_text p.id none ctx.task_priority
          ctx.pending_due_date ctx.labels true [] with
      | .ok r =>
        let ctx := { ctx with state := "completed" }
        (ctx, .ok { message := some ("Successfully created " ++ toString r.summary.successful ++ " tasks!"),
                    result := some r })
      | .error e =>
        let ctx := { ctx with state := "error",
                              error_message := some ("Failed to create tasks: " ++ e) }
        (ctx, .ok { error := ctx.error_message })
  else if ["no", "n", "cancel", "abort"].contains (pyLower text) then
    let ctx := { ctx with state := "idle" }
    (ctx, .ok { message := some "Task creation cancelled" })
  else
    (ctx, .ok { error := some "Please respond with 'yes' to create tasks or 'no' to cancel",
                confirm_action := some "create_tasks" })

def process_input (env : Env) (ctx : ConversationContext) (text : String) :
    ConversationContext × TurnResult :=
  let ctx := { ctx with last_input := text }
  let step : ConversationContext × Except String TurnResult :=
    if ctx.state = "idle" then _process_initial_input env ctx text
    else if ctx.state = "project_selection" then _process_project_selection env ctx text
    else if ctx.state = "project_creation" then _process_project_creation env ctx text
    else if ctx.state = "date_input" then _process_date_input env ctx text
    else if ctx.state = "confirmation" then _process_confirmation env ctx text
    else
      let c := { ctx with state := "error" }
      let c := { c with error_message := some ("Unknown state: " ++ c.state) }
      (c, .ok { error := c.error_message })
  match step with
  | (ctx2, .ok r) => (ctx2, r)
  | (ctx2, .error e) =>
    ({ ctx2 with state := "error", error_message := some e }, { error := some e })

structure ConversationEngine where
  active_conversations : List (String × ConversationContext)
deriving DecidableEq, Repr

structure EngineResult where
  conversation_id : String
  state : String
  turn : TurnResult
deriving DecidableEq, Repr

def mapLookup (m : List (String × ConversationContext)) (k : String) :
    Option ConversationContext :=
  (m.find? (fun p => p.1 == k)).map (fun p => p.2)

def mapErase (m : List (String × ConversationContext)) (k : String) :
    List (String × ConversationContext) :=
  m.filter (fun p => p.1 != k)

def mapInsert (m : List (String × ConversationContext)) (k : String)
    (v : ConversationContext) : List (String × ConversationContext) :=
  mapErase m k ++ [(k, v)]

def start_conversation (env : Env) (eng : ConversationEngine) (freshId : String)
    (now : Nat) (text : String) (context : List (String × String)) (timeout : Nat) :
    ConversationEngine × EngineResult :=
  let ctx0 := newContext freshId now timeout context
  let pr := process_input env ctx0 text
  ({ eng with active_conversations := mapInsert eng.active_conversations freshId pr.1 },
   { conversation_id := freshId, state := pr.1.state, turn := pr.2 })

def continue_conversation (env : Env) (eng : ConversationEngine)
    (conversation_id : String) (now : Nat) (text : String)
    (context : List (String × String)) :
    ConversationEngine × Except String EngineResult :=
  match mapLookup eng.active_conversations conversation_id with
  | none => (eng, .error ("Conversation " ++ conversation_id ++ " not found"))
  | some ctx =>
    if is_expired now ctx then
      ({ eng with active_conversations := mapErase eng.active_conversations conversation_id },
       .error "Conversation timeout")
    else
      let ctx := if context ≠ [] then update_context ctx context else ctx
      let pr := process_input env ctx text
      let m1 := mapInsert eng.active_conversations conversation_id pr.1
      let m2 := if pr.1.state = "completed" ∨ pr.1.state = "error" then
          mapErase m1 conversation_id
        else m1
      ({ eng with active_conversations := m2 },
       .ok { conversation_id := conversation_id, state := pr.1.state, turn := pr.2 })

structure StatusResult where
  exists_flag : Bool
  state : Option String := none
  is_expired_flag : Option Bool := none
deriving DecidableEq, Repr

def get_conversation_status (eng : ConversationEngine) (conversation_id : String)
    (now : Nat) : StatusResult :=
  match mapLookup eng.active_conversations conversation_id with
  | none => { exists_flag := false }
  | some ctx =>
    { exists_flag := true, state := some ctx.state,
      is_expired_flag := some (is_expired now ctx) }

def cleanup_expired_conversations (eng : ConversationEngine) (now : Nat) :
    ConversationEngine :=
  { eng with active_conversations :=
      eng.active_conversations.filter (fun p => !(is_expired now p.2)) }

def env0 : Env :=
  { projects := [], create_project := fun _ => .error "offline",
    create_task := fun _ => .error "offline",
    dateutil := fun _ => .error (PyExn.valueError "Unknown string format"),
    today := 19798 }

def eng0 : ConversationEngine := { active_conversations := [] }

def ctxD : ConversationContext :=
  { conversation_id := "c6", timeout := 300, created_at := 0, expires_at := 300,
    state := "date_input", original_text := "Buy milk", parsed_actions := ["milk"],
    project_matches := [], selected_project := some { id := "p1", name := "Home" },
    pending_due_date := none, task_priority := 3, labels := ["voice", "ha"],
    context := [], error_message := none, last_input := "" }

def env9 : Env :=
  { projects := [{ id := "p1", name := "Home" }],
    create_project := fun _ => .error "offline",
    create_task := fun req =>
      if req.parent_id = none then .ok { id := "m1", content := req.content }
      else if req.content = "buy milk" then .error "rate limited"
      else .ok { id := "s1", content := req.content },
    dateutil := fun _ => .error (PyExn.valueError "Unknown string format"),
    today := 19798 }

def ctx9 : ConversationContext :=
  { ctxD with state := "confirmation", original_text := "- buy milk\n- call mom now",
              parsed_actions := ["buy milk", "call mom now"] }

def eng5 : ConversationEngine := { active_conversations := [("k1", ctx9)] }

def ctxT : ConversationContext := { ctxD with timeout := 30, created_at := 0, expires_at := 30 }
def engT : ConversationEngine := { active_conversations := [("t1", ctxT)] }




/-- The length bound the extractor enforces on every action. -/
def lenOK (x : String) : Prop := 4 ≤ x.length ∧ x.length ≤ 500

def dateutilStub : String → Except PyExn Nat :=
  fun _ => .error (PyExn.valueError "Unknown string format")

/-- A date-library stub behaving as dateutil does on a 20-digit numeric year:
datetime.replace overflows the C long range, raising an OverflowError that
except (ValueError, TypeError) does not catch. -/
def dateutilOverflow : String → Except PyExn Nat :=
  fun s =>
    if s = "99999999999999999999/1/1" then
      .error (PyExn.overflowError "Python int too large to convert to C long")
    else .error (PyExn.valueError "Unknown string format")

/-- C7 (counterexample): on 2024-03-16, a Saturday (weekday 5), the source maps
"this week" to today + (4 - weekday) = 2024-03-15, the Friday that already
passed — a date strictly before today, contradicting the claim that the result
of "this week" is never strictly before the current date. -/
theorem c7_this_week_past_friday_on_saturday :
    weekday 19798 = 5 ∧ isoformat 19798 = "2024-03-16" ∧
    parse_due_date 19798 dateutilStub "this week" =
      .ok (some (isoformat (19798 - 1))) ∧
    isoformat (19798 - 1) = "2024-03-15" ∧ 19798 - 1 < 19798 := by
  refine ⟨by decide, by decide, ?_, by decide, by decide⟩
  decide

/-- C7 (amended): "this week" resolves to the Friday of the current Monday-based
week (today + 4 - weekday), which is on or after today exactly when today's
weekday is at most 4 (Mon-Fri) and strictly before today on Saturday and
Sunday; "next week" resolves to the Monday of the next week
(today + 7 - weekday), which is always strictly after today. -/
theorem c7_week_keywords (today : Nat) (o : String → Except PyExn Nat) :
    parse_due_date today o "this week" =
      .ok (some (isoformat (today + 4 - weekday today))) ∧
    parse_due_date today o "next week" =
      .ok (some (isoformat (today + 7 - weekday today))) ∧
    (weekday today ≤ 4 → today ≤ today + 4 - weekday today) ∧
    (5 ≤ weekday today → today + 4 - weekday today < today) ∧
    today < today + 7 - weekday today := by
  refine ⟨rfl, rfl, ?_, ?_, ?_⟩ <;> (unfold weekday; omega)

/-- C7 witness: the amended theorem applied on the concrete Saturday
2024-03-16. -/
theorem c7_week_keywords_witness :
    parse_due_date 19798 dateutilStub "this week" = .ok (some "2024-03-15") ∧
    parse_due_date 19798 dateutilStub "next week" = .ok (some "2024-03-18") := by
  have h := c7_week_keywords 19798 dateutilStub
  exact ⟨h.1.trans (by decide), h.2.1.trans (by decide)⟩

/-- C8: the keyword table sends "today" to the current date and "tomorrow" to
the next day; a literal YYYY-MM-DD string passes through unchanged; and
"invalid-garbage-xyz" (which every resolution tier misses and on which the
free-text date library raises its ParserError, a ValueError the source
catches) yields null. -/
theorem c8_fixed_inputs (today : Nat) (o : String → Except PyExn Nat) :
    parse_due_date today o "today" = .ok (some (isoformat today)) ∧
    parse_due_date today o "tomorrow" = .ok (some (isoformat (today + 1))) ∧
    parse_due_date today o "2024-03-15" = .ok (some "2024-03-15") ∧
    (∀ m, o "invalid-garbage-xyz" = .error (PyExn.valueError m) →
      parse_due_date today o "invalid-garbage-xyz" = .ok none) := by
  refine ⟨rfl, rfl, rfl, ?_⟩
  intro m h
  show (match o "invalid-garbage-xyz" with
        | .ok d => (Except.ok (some (isoformat d)) : Except PyExn (Option String))
        | .error e => if e.isValueOrTypeError then .ok none else .error e) =
    .ok none
  rw [h]
  rfl

/-- C8 witness: the theorem applied on 2024-03-16 with a date library stub
that raises ValueError on every string, as dateutil does on
"invalid-garbage-xyz". -/
theorem c8_fixed_inputs_witness :
    parse_due_date 19798 dateutilStub "today" = .ok (some "2024-03-16") ∧
    parse_due_date 19798 dateutilStub "tomorrow" = .ok (some "2024-03-17") ∧
    parse_due_date 19798 dateutilStub "2024-03-15" = .ok (some "2024-03-15") ∧
    parse_due_date 19798 dateutilStub "invalid-garbage-xyz" = .ok none := by
  have h := c8_fixed_inputs 19798 dateutilStub
  exact ⟨h.1.trans (by decide), h.2.1.trans (by decide), h.2.2.1,
         h.2.2.2 "Unknown string format" rfl⟩

/-- C10: an input whose normalised (lower-cased, stripped) form has the shape
dddd-dd-dd and is missed by every earlier tier is returned as that normalised
form, with no validation that it denotes a real calendar date. -/
theorem c10_iso_passthrough (today : Nat) (o : String → Except PyExn Nat)
    (s : String)
    (h1 : isIsoShape (normInput s) = true)
    (h2 : lookupAssoc DATE_PATTERNS (normInput s) = none)
    (h3 : matchInDays (normInput s) = none)
    (h4 : findDayName (normInput s) = none) :
    parse_due_date today o s = .ok (some (normInput s)) := by
  by_cases hs : s = ""
  · subst hs; exact absurd h1 (by decide)
  · unfold parse_due_date resolveDate
    rw [if_neg hs, h2, h3, h4, if_pos h1]

/-- C10 witness: "2024-13-45" (month 13, day 45) is returned as-is. -/
theorem c10_iso_passthrough_witness :
    parse_due_date 19798 dateutilStub "2024-13-45" = .ok (some "2024-13-45") := by
  have h := c10_iso_passthrough 19798 dateutilStub "2024-13-45"
    (by decide) (by decide) (by decide) (by decide)
  exact h.trans (by decide)

/-- C3 (counterexample): parse_due_date CAN raise. The source catches only
ValueError and TypeError around the free-text fallback, but dateutil also
raises OverflowError — "99999999999999999999/1/1" misses every earlier tier
and its 20-digit year overflows the C long range in datetime.replace — and
that exception escapes parse_due_date instead of yielding null. -/
theorem c3_overflow_escapes :
    parse_due_date 19798 dateutilOverflow "99999999999999999999/1/1" =
      .error (PyExn.overflowError "Python int too large to convert to C long") := by
  decide

/-- The only way resolveDate can end in an escaped exception: the library
oracle failed with an exception outside the except (ValueError, TypeError)
set. -/
theorem resolveDate_error_inv (today : Nat) (o : String → Except PyExn Nat)
    (s : String) (e : PyExn) (h : resolveDate today o s = .error e) :
    o s = .error e ∧ e.isValueOrTypeError = false := by
  unfold resolveDate at h
  split at h
  · split at h
    · simp at h
    · split at h
      · simp at h
      · split at h <;> simp at h
  · split at h
    · simp at h
    · split at h
      · simp at h
      · split at h
        · simp at h
        · split at h
          · simp at h
          · rename_i e2 heq2
            split at h
            · simp at h
            · rename_i hvt
              injection h with h
              subst h
              exact ⟨heq2, by simpa using hvt⟩

/-- C3 (amended): parse_due_date returns an ISO string or null and never
raises as long as every failure of the free-text date library is a ValueError
or TypeError — the types the except clause catches, which it absorbs into
null; a library failure of any other type (dateutil's OverflowError) escapes
the function unchanged. -/
theorem c3_catch_set :
    (∀ (today : Nat) (o : String → Except PyExn Nat) (input : String),
      (∀ s e, o s = .error e → e.isValueOrTypeError = true) →
      ∃ r : Option String, parse_due_date today o input = .ok r) ∧
    (∀ (today : Nat) (o : String → Except PyExn Nat) (input : String) (e : PyExn),
      lookupAssoc DATE_PATTERNS (normInput input) = none →
      matchInDays (normInput input) = none →
      findDayName (normInput input) = none →
      isIsoShape (normInput input) = false →
      o (normInput input) = .error e →
      e.isValueOrTypeError = true →
      parse_due_date today o input = .ok none) ∧
    (∀ (today : Nat) (o : String → Except PyExn Nat) (input : String) (e : PyExn),
      input ≠ "" →
      lookupAssoc DATE_PATTERNS (normInput input) = none →
      matchInDays (normInput input) = none →
      findDayName (normInput input) = none →
      isIsoShape (normInput input) = false →
      o (normInput input) = .error e →
      e.isValueOrTypeError = false →
      parse_due_date today o input = .error e) := by
  refine ⟨?_, ?_, ?_⟩
  · intro today o input h
    cases hres : parse_due_date today o input with
    | ok r => exact ⟨r, rfl⟩
    | error e =>
      exfalso
      unfold parse_due_date at hres
      split at hres
      · simp at hres
      · obtain ⟨ho, hvt⟩ := resolveDate_error_inv today o (normInput input) e hres
        rw [h (normInput input) e ho] at hvt
        simp at hvt
  · intro today o input e h2 h3 h4 h5 h6 h7
    by_cases hi : input = ""
    · simp [parse_due_date, hi]
    · unfold parse_due_date resolveDate
      rw [if_neg hi, h2, h3, h4, h5, if_neg (by simp), h6]
      show (if PyExn.isValueOrTypeError e = true then
          (Except.ok none : Except PyExn (Option String))
        else Except.error e) = Except.ok none
      rw [h7]
      rfl
  · intro today o input e hne h2 h3 h4 h5 h6 h7
    unfold parse_due_date resolveDate
    rw [if_neg hne, h2, h3, h4, h5, if_neg (by simp), h6]
    show (if PyExn.isValueOrTypeError e = true then
        (Except.ok none : Except PyExn (Option String))
      else Except.error e) = Except.error e
    rw [h7]
    rfl

/-- C3 witness: the amended theorem at concrete inputs — a ValueError-only
library never lets an exception out (garbage yields null), while the overflow
input escapes. -/
theorem c3_catch_set_witness :
    (∃ r : Option String,
      parse_due_date 19798 dateutilStub "some text" = .ok r) ∧
    parse_due_date 19798 dateutilStub "total garbage" = .ok none ∧
    parse_due_date 19798 dateutilOverflow "99999999999999999999/1/1" =
      .error (PyExn.overflowError "Python int too large to convert to C long") := by
  refine ⟨c3_catch_set.1 19798 dateutilStub "some text"
    (fun _ e he => by rw [← Except.error.inj he]; rfl), ?_, ?_⟩
  · exact c3_catch_set.2.1 19798 dateutilStub "total garbage"
      (PyExn.valueError "Unknown string format")
      (by decide) (by decide) (by decide) (by decide) rfl rfl
  · exact c3_catch_set.2.2 19798 dateutilOverflow "99999999999999999999/1/1"
      (PyExn.overflowError "Python int too large to convert to C long")
      (by decide) (by decide) (by decide) (by decide) (by decide) rfl rfl

section ExtractorLemmas

theorem length_dropWhile_le (p : Char → Bool) (l : List Char) :
    (l.dropWhile p).length ≤ l.length := by
  induction l with
  | nil => simp
  | cons c t ih =>
    by_cases h : p c
    · simp [List.dropWhile, h]; omega
    · simp [List.dropWhile, h]

theorem length_dropTrailingWhile_le (p : Char → Bool) (l : List Char) :
    (dropTrailingWhile p l).length ≤ l.length := by
  unfold dropTrailingWhile
  have := length_dropWhile_le p l.reverse
  simp only [List.length_reverse] at *
  omega

theorem mk_length (l : List Char) : (String.mk l).length = l.length := rfl

theorem pyStrip_length_le (s : String) : (pyStrip s).length ≤ s.length := by
  unfold pyStrip
  rw [mk_length]
  calc (dropTrailingWhile isPySpace (s.data.dropWhile isPySpace)).length
      ≤ (s.data.dropWhile isPySpace).length := length_dropTrailingWhile_le _ _
    _ ≤ s.data.length := length_dropWhile_le _ _

theorem stripTrailingPunct_length_le (a : String) :
    (stripTrailingPunct a).length ≤ a.length := by
  unfold stripTrailingPunct
  rw [mk_length]
  exact length_dropTrailingWhile_le _ _

theorem findSome?_some_exists {α β : Type} {f : α → Option β} :
    ∀ {l : List α} {b : β}, l.findSome? f = some b → ∃ a, f a = some b := by
  intro l
  induction l with
  | nil => intro b h; simp at h
  | cons x t ih =>
    intro b h
    rw [List.findSome?_cons] at h
    cases hx : f x with
    | some v => rw [hx] at h; exact ⟨x, hx.trans h⟩
    | none => rw [hx] at h; exact ih h

theorem stripFillerPrefix_length_le (a : String) :
    (stripFillerPrefix a).length ≤ a.length := by
  unfold stripFillerPrefix
  set f := fun (w : String) =>
    if w.data.isPrefixOf (a.data.map Char.toLower) then
      match a.data.drop w.length with
      | c :: rest => if isPySpace c then some (String.mk (rest.dropWhile isPySpace)) else none
      | [] => none
    else none with hf
  cases h : List.findSome? f ["that", "to", "and", "or", "but"] with
  | none => exact le_refl _
  | some r =>
    obtain ⟨w, hw⟩ := findSome?_some_exists h
    rw [hf] at hw
    dsimp only at hw
    split at hw
    · split at hw
      · split at hw
        · rename_i c rest heq _
          have h1 : a.data.length - w.length = rest.length + 1 := by
            have := congrArg List.length heq
            simpa [List.length_drop] using this
          have h2 : (String.mk (rest.dropWhile isPySpace)).length ≤ rest.length := by
            rw [mk_length]; exact length_dropWhile_le _ _
          have h3 : r = String.mk (rest.dropWhile isPySpace) :=
            (Option.some.inj hw).symm
          show r.length ≤ a.length
          rw [h3]
          have h4 : a.length = a.data.length := rfl
          omega
        · exact absurd hw (by simp)
      · exact absurd hw (by simp)
    · exact absurd hw (by simp)

end ExtractorLemmas


theorem cleanAction_length_le (a : String) : (cleanAction a).length ≤ a.length := by
  unfold cleanAction
  calc (pyStrip (stripTrailingPunct (stripFillerPrefix a))).length
      ≤ (stripTrailingPunct (stripFillerPrefix a)).length := pyStrip_length_le _
    _ ≤ (stripFillerPrefix a).length := stripTrailingPunct_length_le _
    _ ≤ a.length := stripFillerPrefix_length_le _

theorem mem_setAdd {acc : List String} {s x : String} (h : x ∈ setAdd acc s) :
    x ∈ acc ∨ x = s := by
  unfold setAdd at h
  split at h
  · exact Or.inl h
  · rcases List.mem_append.mp h with h1 | h1
    · exact Or.inl h1
    · exact Or.inr (List.mem_singleton.mp h1)

theorem nodup_setAdd {acc : List String} {s : String} (h : acc.Nodup) :
    (setAdd acc s).Nodup := by
  unfold setAdd
  split
  · exact h
  · rename_i hc
    refine List.Nodup.append h (List.nodup_singleton s) ?_
    intro x hx hs
    rw [List.mem_singleton.mp hs] at hx
    exact hc (List.elem_iff.mpr hx)

theorem setAdd_inv {acc : List String} {s : String}
    (h1 : acc.Nodup) (h2 : ∀ x ∈ acc, lenOK x) (h3 : lenOK s) :
    (setAdd acc s).Nodup ∧ ∀ x ∈ setAdd acc s, lenOK x := by
  refine ⟨nodup_setAdd h1, fun x hx => ?_⟩
  rcases mem_setAdd hx with h | h
  · exact h2 x h
  · rw [h]; exact h3

theorem addCandidate_inv {acc : List String} {c : String}
    (h1 : acc.Nodup) (h2 : ∀ x ∈ acc, lenOK x) :
    (addCandidate acc c).Nodup ∧ ∀ x ∈ addCandidate acc c, lenOK x := by
  unfold addCandidate
  split
  · rename_i hlen
    dsimp only
    split
    · rename_i hclen
      refine setAdd_inv h1 h2 ⟨by omega, ?_⟩
      have := cleanAction_length_le c
      omega
    · exact ⟨h1, h2⟩
  · exact ⟨h1, h2⟩

theorem foldl_addCandidate_inv :
    ∀ (cands acc : List String), acc.Nodup → (∀ x ∈ acc, lenOK x) →
      (cands.foldl addCandidate acc).Nodup ∧
      ∀ x ∈ cands.foldl addCandidate acc, lenOK x := by
  intro cands
  induction cands with
  | nil => exact fun acc h1 h2 => ⟨h1, h2⟩
  | cons c rest ih =>
    intro acc h1 h2
    rw [List.foldl_cons]
    obtain ⟨h1x, h2x⟩ := addCandidate_inv h1 h2
    exact ih _ h1x h2x

theorem fallback_step_inv (sent : String) {acc : List String}
    (h1 : acc.Nodup) (h2 : ∀ x ∈ acc, lenOK x) :
    ((fun acc sent =>
      let sentence := pyStrip sent
      if 5 < sentence.length then
        if action_verbs.any (fun v => strStartsWith (pyLower sentence) v) then
          if sentence.length < 500 then setAdd acc sentence else acc
        else acc
      else acc) acc sent).Nodup ∧
    ∀ x ∈ (fun acc sent =>
      let sentence := pyStrip sent
      if 5 < sentence.length then
        if action_verbs.any (fun v => strStartsWith (pyLower sentence) v) then
          if sentence.length < 500 then setAdd acc sentence else acc
        else acc
      else acc) acc sent, lenOK x := by
  dsimp only
  split
  · split
    · split
      · rename_i hl _ hu
        exact setAdd_inv h1 h2 ⟨by omega, by omega⟩
      · exact ⟨h1, h2⟩
    · exact ⟨h1, h2⟩
  · exact ⟨h1, h2⟩

theorem fallbackActions_inv (text : String) :
    (fallbackActions text).Nodup ∧ ∀ x ∈ fallbackActions text, lenOK x := by
  unfold fallbackActions
  generalize splitSentences text = sents
  suffices h : ∀ (ss : List String) (acc : List String), acc.Nodup →
      (∀ x ∈ acc, lenOK x) →
      (ss.foldl _ acc).Nodup ∧ ∀ x ∈ ss.foldl _ acc, lenOK x from
    h sents [] List.nodup_nil (by simp)
  intro ss
  induction ss with
  | nil => exact fun acc h1 h2 => ⟨h1, h2⟩
  | cons c rest ih =>
    intro acc h1 h2
    rw [List.foldl_cons]
    obtain ⟨h1x, h2x⟩ := fallback_step_inv c h1 h2
    exact ih _ h1x h2x

/-- C4: every extracted action has length between 4 and 500, the result never
holds the same string twice, and both the empty string and the None input
produce the empty result. -/
theorem c4_extract_actions_bounds :
    (∀ (text a : String), a ∈ extract_actions text →
      4 ≤ a.length ∧ a.length ≤ 500) ∧
    (∀ text : String, (extract_actions text).Nodup) ∧
    extract_actions "" = [] ∧ extract_actions_opt none = [] := by
  have main : ∀ text : String, (extract_actions text).Nodup ∧
      ∀ a ∈ extract_actions text, lenOK a := by
    intro text
    unfold extract_actions
    split
    · exact ⟨List.nodup_nil, by simp⟩
    · dsimp only
      split
      · obtain ⟨h1, h2⟩ := fallbackActions_inv text
        exact ⟨h1, h2⟩
      · exact foldl_addCandidate_inv _ [] List.nodup_nil (by simp)
  exact ⟨fun text a ha => (main text).2 a ha, fun text => (main text).1, rfl, rfl⟩

/-- C4 witness: the bound theorem applied to a concrete extraction. -/
theorem c4_extract_actions_bounds_witness :
    ("buy milk" ∈ extract_actions "- buy milk\n- call mom now") ∧
    4 ≤ ("buy milk" : String).length ∧ ("buy milk" : String).length ≤ 500 := by
  have hm : ("buy milk" : String) ∈ extract_actions "- buy milk\n- call mom now" := by
    decide
  exact ⟨hm, c4_extract_actions_bounds.1 "- buy milk\n- call mom now" "buy milk" hm⟩


section MatcherLemmas

theorem and_eq_true_iff {a b : Bool} : (a && b) = true ↔ a = true ∧ b = true := by
  simp

theorem appendAll_eq (cond : Project → Bool) (score : Nat) (reason : String) :
    ∀ (ps : List Project) (init : List ProjectMatch),
      appendAll cond score reason ps init =
        init ++ (ps.filter cond).map (fun p => mkMatch p score reason) := by
  intro ps
  induction ps with
  | nil => intro init; simp [appendAll]
  | cons p t ih =>
    intro init
    unfold appendAll
    rw [List.foldl_cons]
    by_cases h : cond p
    · rw [if_pos h]
      have := ih (init ++ [mkMatch p score reason])
      unfold appendAll at this
      rw [this, List.filter_cons_of_pos h]
      simp
    · rw [if_neg h]
      have := ih init
      unfold appendAll at this
      rw [this, List.filter_cons_of_neg h]

theorem hasId_iff (ms : List ProjectMatch) (i : String) :
    hasId ms i = true ↔ i ∈ ms.map (fun m => m.id) := by
  unfold hasId
  rw [List.any_eq_true]
  constructor
  · rintro ⟨m, hm, he⟩
    exact List.mem_map.mpr ⟨m, hm, (beq_iff_eq.mp he).symm ▸ rfl⟩
  · intro h
    obtain ⟨m, hm, he⟩ := List.mem_map.mp h
    exact ⟨m, hm, beq_iff_eq.mpr he⟩

theorem appendNew_decomp (cond : Project → Bool) (score : Nat) (reason : String) :
    ∀ (ps : List Project) (init : List ProjectMatch),
      ∃ e, appendNew cond score reason ps init = init ++ e ∧
        ∀ x ∈ e, ∃ p ∈ ps, cond p = true ∧ x = mkMatch p score reason ∧
          p.id ∉ init.map (fun m => m.id) := by
  intro ps
  induction ps with
  | nil => intro init; exact ⟨[], by simp [appendNew], by simp⟩
  | cons p t ih =>
    intro init
    unfold appendNew
    rw [List.foldl_cons]
    by_cases h : cond p && !hasId init p.id
    · rw [if_pos h]
      obtain ⟨e, he, hmem⟩ := ih (init ++ [mkMatch p score reason])
      unfold appendNew at he
      refine ⟨mkMatch p score reason :: e, by rw [he]; simp, ?_⟩
      intro x hx
      rcases List.mem_cons.mp hx with hx | hx
      · obtain ⟨h1, h2⟩ := and_eq_true_iff.mp h
        refine ⟨p, List.mem_cons_self p t, h1, hx, ?_⟩
        intro hin
        rw [← hasId_iff] at hin
        rw [hin] at h2
        simp at h2
      · obtain ⟨q, hq, hcq, hxq, hnot⟩ := hmem x hx
        refine ⟨q, List.mem_cons_of_mem p hq, hcq, hxq, ?_⟩
        intro hin
        exact hnot (by simp [hin])
    · rw [if_neg h]
      obtain ⟨e, he, hmem⟩ := ih init
      unfold appendNew at he
      refine ⟨e, he, ?_⟩
      intro x hx
      obtain ⟨q, hq, hcq, hxq, hnot⟩ := hmem x hx
      exact ⟨q, List.mem_cons_of_mem p hq, hcq, hxq, hnot⟩

theorem appendNew_covers (cond : Project → Bool) (score : Nat) (reason : String) :
    ∀ (ps : List Project) (init : List ProjectMatch) (p : Project), p ∈ ps →
      cond p = true →
      p.id ∈ (appendNew cond score reason ps init).map (fun m => m.id) := by
  intro ps
  induction ps with
  | nil => intro init p h; simp at h
  | cons q t ih =>
    intro init p hp hc
    unfold appendNew
    rw [List.foldl_cons]
    have step_mono : ∀ (init2 : List ProjectMatch) (i : String),
        i ∈ init2.map (fun m => m.id) →
        i ∈ (appendNew cond score reason t init2).map (fun m => m.id) := by
      intro init2 i hi
      obtain ⟨e, he, _⟩ := appendNew_decomp cond score reason t init2
      rw [he, List.map_append]
      exact List.mem_append_left _ hi
    rcases List.mem_cons.mp hp with rfl | hp
    · by_cases h : cond p && !hasId init p.id
      · rw [if_pos h]
        exact step_mono _ _ (by simp [mkMatch])
      · rw [if_neg h]
        have : hasId init p.id = true := by
          rcases (not_and_or.mp (fun hand => h (and_eq_true_iff.mpr hand))) with h1 | h1
          · exact absurd hc h1
          · simpa using h1
        exact step_mono _ _ ((hasId_iff _ _).mp this)
    · split
      · exact ih _ p hp hc
      · exact ih _ p hp hc

theorem appendNew_nodup (cond : Project → Bool) (score : Nat) (reason : String) :
    ∀ (ps : List Project) (init : List ProjectMatch),
      (init.map (fun m => m.id)).Nodup →
      ((appendNew cond score reason ps init).map (fun m => m.id)).Nodup := by
  intro ps
  induction ps with
  | nil => intro init h; simpa [appendNew] using h
  | cons p t ih =>
    intro init h
    unfold appendNew
    rw [List.foldl_cons]
    by_cases hg : cond p && !hasId init p.id
    · rw [if_pos hg]
      apply ih
      rw [List.map_append]
      refine List.Nodup.append h (by simp) ?_
      intro i hi hj
      simp only [List.map_cons, List.map_nil, List.mem_singleton] at hj
      obtain ⟨_, h2⟩ := and_eq_true_iff.mp hg
      rw [hj] at hi
      rw [← hasId_iff] at hi
      simp only [mkMatch] at hi
      rw [hi] at h2
      simp at h2
    · rw [if_neg hg]
      exact ih _ h

end MatcherLemmas


theorem kwPass_decomp (ps : List Project) (ql : String) :
    ∀ (cats : List (String × List String)) (init : List ProjectMatch),
      ∃ e, kwPass ps ql cats init = init ++ e ∧
        ∀ x ∈ e, ∃ ck ∈ cats, (ck.2.any (fun k => strContains ql k)) = true ∧
          ∃ p ∈ ps, kwNameCond ck.2 p = true ∧ x = mkMatch p 60 "keyword_match" ∧
            p.id ∉ init.map (fun m => m.id) := by
  intro cats
  induction cats with
  | nil => intro init; exact ⟨[], by simp [kwPass], by simp⟩
  | cons ck t ih =>
    intro init
    unfold kwPass
    rw [List.foldl_cons]
    by_cases h : ck.2.any (fun k => strContains ql k)
    · rw [if_pos h]
      obtain ⟨e1, he1, hmem1⟩ :=
        appendNew_decomp (kwNameCond ck.2) 60 "keyword_match" ps init
      obtain ⟨e2, he2, hmem2⟩ := ih (appendNew (kwNameCond ck.2) 60 "keyword_match" ps init)
      unfold kwPass at he2
      refine ⟨e1 ++ e2, ?_, ?_⟩
      · rw [he2, he1, List.append_assoc]
      · intro x hx
        rcases List.mem_append.mp hx with hx | hx
        · obtain ⟨p, hp, hcp, hxp, hnot⟩ := hmem1 x hx
          exact ⟨ck, List.mem_cons_self ck t, h, p, hp, hcp, hxp, hnot⟩
        · obtain ⟨ck2, hck2, hq2, p, hp, hcp, hxp, hnot⟩ := hmem2 x hx
          refine ⟨ck2, List.mem_cons_of_mem ck hck2, hq2, p, hp, hcp, hxp, ?_⟩
          intro hin
          rw [he1, List.map_append] at hnot
          exact hnot (List.mem_append_left _ hin)
    · rw [if_neg h]
      obtain ⟨e, he, hmem⟩ := ih init
      unfold kwPass at he
      refine ⟨e, he, ?_⟩
      intro x hx
      obtain ⟨ck2, hck2, hq2, rest⟩ := hmem x hx
      exact ⟨ck2, List.mem_cons_of_mem ck hck2, hq2, rest⟩

theorem kwPass_nodup (ps : List Project) (ql : String) :
    ∀ (cats : List (String × List String)) (init : List ProjectMatch),
      (init.map (fun m => m.id)).Nodup →
      ((kwPass ps ql cats init).map (fun m => m.id)).Nodup := by
  intro cats
  induction cats with
  | nil => intro init h; simpa [kwPass] using h
  | cons ck t ih =>
    intro init h
    unfold kwPass
    rw [List.foldl_cons]
    split
    · exact ih _ (appendNew_nodup _ _ _ _ _ h)
    · exact ih _ h


theorem isPrefixOf_self (l : List Char) : l.isPrefixOf l = true := by
  induction l with
  | nil => rfl
  | cons c t ih => simp [List.isPrefixOf, ih]

theorem listInfix_of_isPrefixOf (sub l : List Char) (h : sub.isPrefixOf l = true) :
    listInfix sub l = true := by
  cases l with
  | nil =>
    cases sub with
    | nil => rfl
    | cons c t => simp [List.isPrefixOf] at h
  | cons c t => simp [listInfix, h]

theorem exactCond_imp_starts (ql : String) (p : Project)
    (h : exactCond ql p = true) : startsCond ql p = true := by
  unfold exactCond at h
  unfold startsCond strStartsWith
  rw [beq_iff_eq] at h
  rw [h]
  exact isPrefixOf_self _

theorem startsCond_imp_contains (ql : String) (p : Project)
    (h : startsCond ql p = true) : containsCond ql p = true := by
  unfold startsCond strStartsWith at h
  unfold containsCond strContains
  exact listInfix_of_isPrefixOf _ _ h

theorem m1_ids (ps : List Project) (ql : String) :
    (appendAll (exactCond ql) 100 "exact_match" ps []).map (fun m => m.id) =
      (ps.filter (exactCond ql)).map Project.id := by
  rw [appendAll_eq]
  simp [mkMatch]

theorem m1_covers (ps : List Project) (ql : String) (p : Project)
    (hp : p ∈ ps) (hc : exactCond ql p = true) :
    p.id ∈ (appendAll (exactCond ql) 100 "exact_match" ps []).map (fun m => m.id) := by
  rw [m1_ids]
  exact List.mem_map.mpr ⟨p, List.mem_filter.mpr ⟨hp, hc⟩, rfl⟩

theorem insertDesc_eq_append (x : ProjectMatch) :
    ∀ (l : List ProjectMatch), (∀ y ∈ l, x.match_score ≤ y.match_score) →
      insertDesc l x = l ++ [x] := by
  intro l
  induction l with
  | nil => intro _; rfl
  | cons y t ih =>
    intro h
    unfold insertDesc
    rw [if_neg (by have := h y (List.mem_cons_self y t); omega)]
    rw [ih (fun z hz => h z (List.mem_cons_of_mem y hz))]
    rfl

theorem sortByScoreDesc_of_pairwise :
    ∀ (l acc : List ProjectMatch),
      List.Pairwise (fun a b => b.match_score ≤ a.match_score) (acc ++ l) →
      l.foldl insertDesc acc = acc ++ l := by
  intro l
  induction l with
  | nil => intro acc _; simp
  | cons x t ih =>
    intro acc h
    rw [List.foldl_cons]
    have hx : ∀ y ∈ acc, x.match_score ≤ y.match_score := by
      intro y hy
      have := (List.pairwise_append.mp h).2.2 y hy x (List.mem_cons_self x t)
      exact this
    rw [insertDesc_eq_append x acc hx]
    have := ih (acc ++ [x]) (by simpa using h)
    simpa using this

theorem sortByScoreDesc_id (l : List ProjectMatch)
    (h : List.Pairwise (fun a b => b.match_score ≤ a.match_score) l) :
    sortByScoreDesc l = l := by
  unfold sortByScoreDesc
  have := sortByScoreDesc_of_pairwise l [] (by simpa using h)
  simpa using this


theorem matchesRaw_full (ps : List Project) (ql : String) :
    ∃ e2 e3 e4,
      matchesRaw ps ql =
        (ps.filter (exactCond ql)).map (fun p => mkMatch p 100 "exact_match") ++
          (e2 ++ (e3 ++ e4)) ∧
      (∀ x ∈ e2, ∃ p ∈ ps, startsCond ql p = true ∧ exactCond ql p = false ∧
        x = mkMatch p 90 "starts_with") ∧
      (∀ x ∈ e3, ∃ p ∈ ps, containsCond ql p = true ∧ startsCond ql p = false ∧
        exactCond ql p = false ∧ x = mkMatch p 70 "contains") ∧
      (∀ x ∈ e4, ∃ p ∈ ps,
        (∃ ck ∈ keyword_map, (ck.2.any (fun k => strContains ql k)) = true ∧
          kwNameCond ck.2 p = true) ∧
        containsCond ql p = false ∧ startsCond ql p = false ∧
        exactCond ql p = false ∧ x = mkMatch p 60 "keyword_match") := by
  obtain ⟨e2, he2, hm2⟩ :=
    appendNew_decomp (startsCond ql) 90 "starts_with" ps
      (appendAll (exactCond ql) 100 "exact_match" ps [])
  obtain ⟨e3, he3, hm3⟩ :=
    appendNew_decomp (containsCond ql) 70 "contains" ps
      (appendNew (startsCond ql) 90 "starts_with" ps
        (appendAll (exactCond ql) 100 "exact_match" ps []))
  obtain ⟨e4, he4, hm4⟩ :=
    kwPass_decomp ps ql keyword_map
      (appendNew (containsCond ql) 70 "contains" ps
        (appendNew (startsCond ql) 90 "starts_with" ps
          (appendAll (exactCond ql) 100 "exact_match" ps [])))
  refine ⟨e2, e3, e4, ?_, ?_, ?_, ?_⟩
  · show kwPass ps ql keyword_map _ = _
    rw [he4, he3, he2, appendAll_eq]
    simp [List.append_assoc]
  · intro x hx
    obtain ⟨p, hp, hc, hxp, hnot⟩ := hm2 x hx
    by_cases he : exactCond ql p
    · exact absurd (m1_covers ps ql p hp he) hnot
    · exact ⟨p, hp, hc, by simpa using he, hxp⟩
  · intro x hx
    obtain ⟨p, hp, hc, hxp, hnot⟩ := hm3 x hx
    have hst : startsCond ql p = false := by
      by_cases hs : startsCond ql p
      · exact absurd (appendNew_covers (startsCond ql) 90 "starts_with" ps _ p hp hs) hnot
      · simpa using hs
    have hex : exactCond ql p = false := by
      by_cases hx2 : exactCond ql p
      · rw [exactCond_imp_starts ql p hx2] at hst; simp at hst
      · simpa using hx2
    exact ⟨p, hp, hc, hst, hex, hxp⟩
  · intro x hx
    obtain ⟨ck, hck, hq, p, hp, hc, hxp, hnot⟩ := hm4 x hx
    have hco : containsCond ql p = false := by
      by_cases hs : containsCond ql p
      · exact absurd (appendNew_covers (containsCond ql) 70 "contains" ps _ p hp hs) hnot
      · simpa using hs
    have hst : startsCond ql p = false := by
      by_cases hs : startsCond ql p
      · rw [startsCond_imp_contains ql p hs] at hco; simp at hco
      · simpa using hs
    have hex : exactCond ql p = false := by
      by_cases hx2 : exactCond ql p
      · rw [exactCond_imp_starts ql p hx2] at hst; simp at hst
      · simpa using hx2
    exact ⟨p, hp, ⟨ck, hck, hq, hc⟩, hco, hst, hex, hxp⟩

theorem matchesRaw_pairwise (ps : List Project) (ql : String) :
    List.Pairwise (fun a b => b.match_score ≤ a.match_score) (matchesRaw ps ql) := by
  obtain ⟨e2, e3, e4, heq, h2, h3, h4⟩ := matchesRaw_full ps ql
  have s1 : ∀ x ∈ (ps.filter (exactCond ql)).map (fun p => mkMatch p 100 "exact_match"),
      x.match_score = 100 := by
    intro x hx
    obtain ⟨p, _, hpx⟩ := List.mem_map.mp hx
    rw [← hpx]; rfl
  have s2 : ∀ x ∈ e2, x.match_score = 90 := by
    intro x hx; obtain ⟨p, _, _, _, hpx⟩ := h2 x hx; rw [hpx]; rfl
  have s3 : ∀ x ∈ e3, x.match_score = 70 := by
    intro x hx; obtain ⟨p, _, _, _, _, hpx⟩ := h3 x hx; rw [hpx]; rfl
  have s4 : ∀ x ∈ e4, x.match_score = 60 := by
    intro x hx; obtain ⟨p, _, _, _, _, _, hpx⟩ := h4 x hx; rw [hpx]; rfl
  rw [heq]
  have const_pw : ∀ (l : List ProjectMatch) (s : Nat), (∀ x ∈ l, x.match_score = s) →
      List.Pairwise (fun a b => b.match_score ≤ a.match_score) l := by
    intro l s hl
    exact List.pairwise_of_forall_mem_list
      (fun a ha b hb => by rw [hl a ha, hl b hb])
  refine List.pairwise_append.mpr ⟨const_pw _ 100 s1, ?_, ?_⟩
  · refine List.pairwise_append.mpr ⟨const_pw _ 90 s2, ?_, ?_⟩
    · refine List.pairwise_append.mpr ⟨const_pw _ 70 s3, const_pw _ 60 s4, ?_⟩
      intro a ha b hb
      rw [s3 a ha, s4 b hb]; omega
    · intro a ha b hb
      rcases List.mem_append.mp hb with hb | hb
      · rw [s2 a ha, s3 b hb]; omega
      · rw [s2 a ha, s4 b hb]; omega
  · intro a ha b hb
    rcases List.mem_append.mp hb with hb | hb
    · rw [s1 a ha, s2 b hb]; omega
    · rcases List.mem_append.mp hb with hb | hb
      · rw [s1 a ha, s3 b hb]; omega
      · rw [s1 a ha, s4 b hb]; omega

theorem matchesRaw_nodup (ps : List Project) (ql : String)
    (h : (ps.map Project.id).Nodup) :
    ((matchesRaw ps ql).map (fun m => m.id)).Nodup := by
  have h1 : ((appendAll (exactCond ql) 100 "exact_match" ps []).map
      (fun m => m.id)).Nodup := by
    rw [m1_ids]
    exact h.sublist (List.Sublist.map _ (List.filter_sublist ps))
  show ((kwPass ps ql keyword_map _).map (fun m => m.id)).Nodup
  exact kwPass_nodup ps ql keyword_map _
    (appendNew_nodup _ _ _ _ _ (appendNew_nodup _ _ _ _ _ h1))


theorem find_matching_projects_eq (ps : List Project) (query : String)
    (h : pyStrip query ≠ "") :
    find_matching_projects ps query = (matchesRaw ps (queryLower query)).take 5 := by
  have hq : query ≠ "" := fun hqe => h (by rw [hqe]; rfl)
  unfold find_matching_projects
  simp only [hq, h, decide_False, Bool.false_or, Bool.or_self, if_false]
  rw [sortByScoreDesc_id _ (matchesRaw_pairwise ps (queryLower query))]
  rfl

/-- C2 (counterexample): take one project whose name is " a" (leading blank)
and the query " A". The query equals the project's name up to case, yet the
matcher strips only the query before comparing, so the exact tier misses and
the project is returned with score 70 and reason contains, not first with
score 100 and exact_match. -/
theorem c2_exact_match_counterexample :
    pyLower (Project.mk "1" " a").name = pyLower " A" ∧
    (find_matching_projects [Project.mk "1" " a"] " A").head? =
      some { id := "1", name := " a", match_score := 70,
             match_reason := "contains" } := by
  constructor
  · decide
  · decide

/-- C2 (amended): writing ql for the lower-cased and stripped query — an empty
or whitespace-only query returns the empty list; the result has length at most
five and is sorted descending by score; with pairwise-distinct project ids no
project appears twice; every entry carries the score and reason of the first
tier (exact 100 / starts_with 90 / contains 70 / keyword 60) its project
earns; and when ql (rather than the raw query) equals some project's
lower-cased name, the first such project is returned first with score 100 and
reason exact_match. -/
theorem c2_find_matching_projects (ps : List Project) (query : String) :
    (pyStrip query = "" → find_matching_projects ps query = []) ∧
    (find_matching_projects ps query).length ≤ 5 ∧
    List.Pairwise (fun a b => b.match_score ≤ a.match_score)
      (find_matching_projects ps query) ∧
    ((ps.map Project.id).Nodup →
      ((find_matching_projects ps query).map (fun m => m.id)).Nodup) ∧
    (∀ m ∈ find_matching_projects ps query, ∃ p ∈ ps,
      (m = mkMatch p 100 "exact_match" ∧ exactCond (queryLower query) p = true) ∨
      (m = mkMatch p 90 "starts_with" ∧ startsCond (queryLower query) p = true ∧
        exactCond (queryLower query) p = false) ∨
      (m = mkMatch p 70 "contains" ∧ containsCond (queryLower query) p = true ∧
        startsCond (queryLower query) p = false ∧
        exactCond (queryLower query) p = false) ∨
      (m = mkMatch p 60 "keyword_match" ∧
        (∃ ck ∈ keyword_map,
          (ck.2.any (fun k => strContains (queryLower query) k)) = true ∧
          kwNameCond ck.2 p = true) ∧
        containsCond (queryLower query) p = false ∧
        startsCond (queryLower query) p = false ∧
        exactCond (queryLower query) p = false)) ∧
    (∀ p0, (ps.filter (exactCond (queryLower query))).head? = some p0 →
      pyStrip query ≠ "" →
      (find_matching_projects ps query).head? =
        some (mkMatch p0 100 "exact_match")) := by
  by_cases hq : pyStrip query = ""
  · have hempty : find_matching_projects ps query = [] := by
      unfold find_matching_projects
      simp [hq]
    refine ⟨fun _ => hempty, ?_, ?_, ?_, ?_, ?_⟩
    · rw [hempty]; simp
    · rw [hempty]; simp
    · rw [hempty]; simp
    · rw [hempty]; simp
    · intro p0 _ hne
      exact absurd hq hne
  · have heq := find_matching_projects_eq ps query hq
    obtain ⟨e2, e3, e4, hdec, h2, h3, h4⟩ := matchesRaw_full ps (queryLower query)
    refine ⟨fun hc => absurd hc hq, ?_, ?_, ?_, ?_, ?_⟩
    · rw [heq]; exact List.length_take_le 5 _
    · rw [heq]
      exact (matchesRaw_pairwise ps (queryLower query)).sublist (List.take_sublist _ _)
    · intro hnd
      rw [heq]
      exact (matchesRaw_nodup ps (queryLower query) hnd).sublist
        (List.Sublist.map _ (List.take_sublist _ _))
    · intro m hm
      rw [heq] at hm
      have hm2 : m ∈ matchesRaw ps (queryLower query) := List.mem_of_mem_take hm
      rw [hdec] at hm2
      rcases List.mem_append.mp hm2 with hx | hx
      · obtain ⟨p, hp, hpx⟩ := List.mem_map.mp hx
        have hpf := List.mem_filter.mp hp
        exact ⟨p, hpf.1, Or.inl ⟨hpx.symm, hpf.2⟩⟩
      · rcases List.mem_append.mp hx with hx | hx
        · obtain ⟨p, hp, hst, hex, hpx⟩ := h2 m hx
          exact ⟨p, hp, Or.inr (Or.inl ⟨hpx, hst, hex⟩)⟩
        · rcases List.mem_append.mp hx with hx | hx
          · obtain ⟨p, hp, hco, hst, hex, hpx⟩ := h3 m hx
            exact ⟨p, hp, Or.inr (Or.inr (Or.inl ⟨hpx, hco, hst, hex⟩))⟩
          · obtain ⟨p, hp, hkw, hco, hst, hex, hpx⟩ := h4 m hx
            exact ⟨p, hp, Or.inr (Or.inr (Or.inr ⟨hpx, hkw, hco, hst, hex⟩))⟩
    · intro p0 hh _
      rw [heq, hdec]
      cases hf : ps.filter (exactCond (queryLower query)) with
      | nil => rw [hf] at hh; simp at hh
      | cons a t =>
        rw [hf] at hh
        simp only [List.head?_cons, Option.some.injEq] at hh
        rw [← hh]
        rfl


/-- C2 witness: the amended theorem at a concrete project list and query -
"Work" matches the exact-named project first, and the result stays within
bounds. -/
theorem c2_find_matching_projects_witness :
    (find_matching_projects [Project.mk "1" "Work", Project.mk "2" "Workout"]
      "Work").head? =
      some (mkMatch (Project.mk "1" "Work") 100 "exact_match") ∧
    (find_matching_projects [Project.mk "1" "Work", Project.mk "2" "Workout"]
      "Work").length ≤ 5 := by
  have h := c2_find_matching_projects [Project.mk "1" "Work", Project.mk "2" "Workout"]
    "Work"
  exact ⟨h.2.2.2.2.2 (Project.mk "1" "Work") (by decide) (by decide), h.2.1⟩


section EngineLemmas

theorem mapErase_lookup_self (m : List (String × ConversationContext)) (k : String) :
    mapLookup (mapErase m k) k = none := by
  unfold mapLookup mapErase
  rw [Option.map_eq_none', List.find?_eq_none]
  intro x hx
  have := (List.mem_filter.mp hx).2
  simp only [bne_iff_ne, ne_eq] at this
  simp [this]

theorem mapInsert_lookup_self (m : List (String × ConversationContext)) (k : String)
    (v : ConversationContext) :
    mapLookup (mapInsert m k v) k = some v := by
  unfold mapInsert
  unfold mapLookup
  rw [List.find?_append]
  have h1 : List.find? (fun p => p.1 == k) (mapErase m k) = none := by
    have := mapErase_lookup_self m k
    unfold mapLookup at this
    exact Option.map_eq_none'.mp this
  rw [h1]
  simp

/-- Inversion of a successful continue_conversation call. -/
theorem continue_ok_inv (env : Env) (eng : ConversationEngine) (id : String)
    (now : Nat) (text : String) (c : List (String × String))
    (eng2 : ConversationEngine) (r : EngineResult)
    (heq : continue_conversation env eng id now text c = (eng2, .ok r)) :
    ∃ ctx, mapLookup eng.active_conversations id = some ctx ∧
      is_expired now ctx = false ∧
      r = { conversation_id := id,
            state := (process_input env
              (if c ≠ [] then update_context ctx c else ctx) text).1.state,
            turn := (process_input env
              (if c ≠ [] then update_context ctx c else ctx) text).2 } ∧
      eng2.active_conversations =
        (if (process_input env (if c ≠ [] then update_context ctx c else ctx)
              text).1.state = "completed" ∨
            (process_input env (if c ≠ [] then update_context ctx c else ctx)
              text).1.state = "error" then
          mapErase (mapInsert eng.active_conversations id
            (process_input env (if c ≠ [] then update_context ctx c else ctx)
              text).1) id
        else
          mapInsert eng.active_conversations id
            (process_input env (if c ≠ [] then update_context ctx c else ctx)
              text).1) := by
  unfold continue_conversation at heq
  cases hl : mapLookup eng.active_conversations id with
  | none => rw [hl] at heq; simp at heq
  | some ctx =>
    rw [hl] at heq
    by_cases hex : is_expired now ctx
    · simp only [hex, if_true] at heq
      simp at heq
    · simp only [Bool.not_eq_true] at hex
      simp only [hex, Bool.false_eq_true, if_false] at heq
      rw [Prod.mk.injEq] at heq
      obtain ⟨he, hr⟩ := heq
      injection hr with hr
      exact ⟨ctx, rfl, hex, hr.symm, by rw [← he]⟩

/-- A turn of continue_conversation that ends terminal purges the session. -/
theorem continue_terminal_purges (env : Env) (eng : ConversationEngine)
    (id : String) (now : Nat) (text : String) (c : List (String × String))
    (eng2 : ConversationEngine) (r : EngineResult)
    (heq : continue_conversation env eng id now text c = (eng2, .ok r))
    (hterm : r.state = "completed" ∨ r.state = "error") :
    mapLookup eng2.active_conversations id = none := by
  obtain ⟨ctx, _, _, hr, he⟩ := continue_ok_inv env eng id now text c eng2 r heq
  rw [hr] at hterm
  simp only at hterm
  rw [he, if_pos hterm]
  exact mapErase_lookup_self _ _

/-- An absent conversation id makes continue_conversation fail not-found. -/
theorem continue_not_found (env : Env) (eng : ConversationEngine) (id : String)
    (now : Nat) (text : String) (c : List (String × String))
    (h : mapLookup eng.active_conversations id = none) :
    continue_conversation env eng id now text c =
      (eng, .error ("Conversation " ++ id ++ " not found")) := by
  unfold continue_conversation
  rw [h]

end EngineLemmas


/-- C1 (counterexample): start_conversation with input "" drives the first
turn to the error state (no actions found), yet the context is still in the
active map after the call returns and a subsequent continue_conversation call
on that id is accepted (it does not fail not-found). -/
theorem c1_start_keeps_terminal_context :
    (start_conversation env0 eng0 "c1" 0 "" [] 300).2.state = "error" ∧
    (mapLookup (start_conversation env0 eng0 "c1" 0 "" [] 300).1.active_conversations
      "c1").map (fun c => c.state) = some "error" ∧
    (continue_conversation env0 (start_conversation env0 eng0 "c1" 0 "" [] 300).1
      "c1" 0 "next input" []).2.isOk = true := by
  refine ⟨by decide, by decide, by decide⟩

/-- C1 (amended): the removal invariant holds for continue_conversation turns
only — a continue_conversation turn that ends in completed or error purges the
context before returning — while start_conversation always stores the context
produced by the first turn in the active map, even when that turn ended in
completed or error, so subsequent input is still accepted under that id. -/
theorem c1_terminal_removal (env : Env) :
    (∀ (eng : ConversationEngine) (id : String) (now : Nat) (text : String)
        (c : List (String × String)) (eng2 : ConversationEngine) (r : EngineResult),
      continue_conversation env eng id now text c = (eng2, .ok r) →
      r.state = "completed" ∨ r.state = "error" →
      mapLookup eng2.active_conversations id = none) ∧
    (∀ (eng : ConversationEngine) (freshId : String) (now : Nat) (text : String)
        (c : List (String × String)) (timeout : Nat),
      mapLookup
        (start_conversation env eng freshId now text c timeout).1.active_conversations
        freshId =
      some (process_input env (newContext freshId now timeout c) text).1) := by
  constructor
  · exact fun eng id now text c eng2 r heq hterm =>
      continue_terminal_purges env eng id now text c eng2 r heq hterm
  · intro eng freshId now text c timeout
    unfold start_conversation
    exact mapInsert_lookup_self _ _ _

/-- C1 witness: a continue_conversation turn that reaches the error state is
purged; start_conversation with the same failing first input leaves the
(error-state) context stored. -/
theorem c1_terminal_removal_witness :
    mapLookup (continue_conversation env9 eng5 "k1" 10 "yes" []).1.active_conversations
      "k1" = none ∧
    mapLookup (start_conversation env0 eng0 "c9" 0 "" [] 300).1.active_conversations
      "c9" = some (process_input env0 (newContext "c9" 0 300 []) "").1 := by
  constructor
  · exact (c1_terminal_removal env9).1 eng5 "k1" 10 "yes" [] _ _ rfl (Or.inl (by decide))
  · exact (c1_terminal_removal env0).2 eng0 "c9" 0 "" [] 300


/-- C5: continue_conversation fails not-found when the id is absent; when the
context is present but expired it is removed and the call fails with the
conversation-timeout condition, after which get_conversation_status reports
exists false; and once a turn reaches completed the session is purged, so a
second continue_conversation call on the same id fails not-found. -/
theorem c5_continue_conversation_lifecycle (env : Env) :
    (∀ (eng : ConversationEngine) (id : String) (now : Nat) (text : String)
        (c : List (String × String)),
      mapLookup eng.active_conversations id = none →
      continue_conversation env eng id now text c =
        (eng, .error ("Conversation " ++ id ++ " not found"))) ∧
    (∀ (eng : ConversationEngine) (id : String) (now : Nat) (text : String)
        (c : List (String × String)) (ctx : ConversationContext),
      mapLookup eng.active_conversations id = some ctx →
      is_expired now ctx = true →
      (continue_conversation env eng id now text c).2 = .error "Conversation timeout" ∧
      mapLookup (continue_conversation env eng id now text c).1.active_conversations
        id = none ∧
      (get_conversation_status (continue_conversation env eng id now text c).1 id
        now).exists_flag = false) ∧
    (∀ (eng : ConversationEngine) (id : String) (now : Nat) (text : String)
        (c : List (String × String)) (eng2 : ConversationEngine) (r : EngineResult),
      continue_conversation env eng id now text c = (eng2, .ok r) →
      r.state = "completed" →
      ∀ (now2 : Nat) (text2 : String) (c2 : List (String × String)),
        continue_conversation env eng2 id now2 text2 c2 =
          (eng2, .error ("Conversation " ++ id ++ " not found"))) := by
  refine ⟨?_, ?_, ?_⟩
  · exact fun eng id now text c h => continue_not_found env eng id now text c h
  · intro eng id now text c ctx hl hex
    have hcc : continue_conversation env eng id now text c =
        ({ eng with active_conversations := mapErase eng.active_conversations id },
         .error "Conversation timeout") := by
      unfold continue_conversation
      rw [hl]
      simp only [hex, if_true]
    rw [hcc]
    refine ⟨rfl, mapErase_lookup_self _ _, ?_⟩
    unfold get_conversation_status
    rw [mapErase_lookup_self _ _]
  · intro eng id now text c eng2 r heq hcomp
    have hnone : mapLookup eng2.active_conversations id = none :=
      continue_terminal_purges env eng id now text c eng2 r heq (Or.inl hcomp)
    exact fun now2 text2 c2 => continue_not_found env eng2 id now2 text2 c2 hnone

/-- C5 witness: the three conditions exercised concretely — a fresh engine has
no conversation "nope"; a context with timeout 30 queried at 31 simulated
seconds times out and is removed; and a conversation completed by one
continue_conversation call is not found by the next. -/
theorem c5_continue_conversation_lifecycle_witness :
    continue_conversation env0 eng0 "nope" 0 "hi" [] =
      (eng0, .error "Conversation nope not found") ∧
    (continue_conversation env0 engT "t1" 31 "hello" []).2 =
      .error "Conversation timeout" ∧
    (get_conversation_status (continue_conversation env0 engT "t1" 31 "hello" []).1
      "t1" 31).exists_flag = false ∧
    (continue_conversation env9 (continue_conversation env9 eng5 "k1" 10 "yes" []).1
      "k1" 11 "yes" []).2 = .error "Conversation k1 not found" := by
  have h := c5_continue_conversation_lifecycle env0
  have h9 := c5_continue_conversation_lifecycle env9
  refine ⟨h.1 eng0 "nope" 0 "hi" [] (by decide), ?_, ?_, ?_⟩
  · exact (h.2.1 engT "t1" 31 "hello" [] ctxT (by decide) (by decide)).1
  · exact (h.2.1 engT "t1" 31 "hello" [] ctxT (by decide) (by decide)).2.2
  · have := h9.2.2 eng5 "k1" 10 "yes" [] _ _ rfl (by decide) 11 "yes" []
    exact congrArg Prod.snd this


/-- C6 (counterexample): in the date_input state the word "empty" is not in
the skip list (the code recognises the empty string instead), so with a date
library that rejects it — as the real one does — the due date is not cleared
and the conversation stays in date_input with a parse error, instead of
proceeding to confirmation with no due date. -/
theorem c6_empty_not_skip_word :
    pyLower "empty" = "empty" ∧
    (process_input env0 ctxD "empty").1.state = "date_input" ∧
    (process_input env0 ctxD "empty").1.pending_due_date = none ∧
    (process_input env0 ctxD "empty").2.error =
      some "Could not parse date. Please try again or say 'none' for no due date" := by
  exact ⟨by decide, by decide, by decide, by decide⟩

/-- C6 (amended): in the date_input state (with a project already selected, as
every path into that state guarantees): a lower-cased input among "none",
"no", "skip", "blank" or the EMPTY STRING clears the due date and proceeds to
confirmation; a parseable date sets it and proceeds to confirmation; other
text whose date parse returns null (its library failure, if any, being a
caught ValueError/TypeError) leaves the state at date_input with the pending
date kept and an error-with-examples reply; but text on which the date parse
RAISES an uncaught exception (dateutil's OverflowError) is trapped by the
turn-level except Exception, driving the conversation to the error state. -/
theorem c6_date_input_transitions (env : Env) (ctx : ConversationContext)
    (text : String) (p : Project) (hst : ctx.state = "date_input")
    (hsel : ctx.selected_project = some p) :
    (["none", "no", "skip", "blank", ""].contains (pyLower text) = true →
      (process_input env ctx text).1.pending_due_date = none ∧
      (process_input env ctx text).1.state = "confirmation") ∧
    (∀ d, ["none", "no", "skip", "blank", ""].contains (pyLower text) = false →
      parse_due_date env.today env.dateutil text = .ok (some d) →
      (process_input env ctx text).1.pending_due_date = some d ∧
      (process_input env ctx text).1.state = "confirmation") ∧
    (["none", "no", "skip", "blank", ""].contains (pyLower text) = false →
      parse_due_date env.today env.dateutil text = .ok none →
      (process_input env ctx text).1.state = "date_input" ∧
      (process_input env ctx text).1.pending_due_date = ctx.pending_due_date ∧
      (process_input env ctx text).2.error =
        some "Could not parse date. Please try again or say 'none' for no due date" ∧
      (process_input env ctx text).2.examples =
        ["today", "tomorrow", "next week", "2024-01-15", "none"]) ∧
    (∀ e, ["none", "no", "skip", "blank", ""].contains (pyLower text) = false →
      parse_due_date env.today env.dateutil text = .error e →
      (process_input env ctx text).1.state = "error" ∧
      (process_input env ctx text).1.error_message = some e.message ∧
      (process_input env ctx text).2.error = some e.message) := by
  refine ⟨?_, ?_, ?_, ?_⟩
  · intro hskip
    unfold process_input
    simp only [hst]
    norm_num
    unfold _process_date_input
    rw [hskip]
    simp only [if_true]
    unfold _prepare_confirmation
    simp only [hsel]
    exact ⟨rfl, rfl⟩
  · intro d hskip hparse
    unfold process_input
    simp only [hst]
    norm_num
    unfold _process_date_input
    rw [hskip]
    simp only [Bool.false_eq_true, if_false]
    rw [hparse]
    unfold _prepare_confirmation
    simp only [hsel]
    exact ⟨rfl, rfl⟩
  · intro hskip hparse
    unfold process_input
    simp only [hst]
    norm_num
    unfold _process_date_input
    rw [hskip]
    simp only [Bool.false_eq_true, if_false]
    rw [hparse]
    exact ⟨rfl, rfl, rfl, rfl⟩
  · intro e hskip hparse
    unfold process_input
    simp only [hst]
    norm_num
    unfold _process_date_input
    rw [hskip]
    simp only [Bool.false_eq_true, if_false]
    rw [hparse]
    exact ⟨rfl, rfl, rfl⟩

/-- C6 witness: the amended theorem at the concrete date_input context — the
skip word "skip" clears the due date and moves to confirmation, and the
overflow input drives the conversation to the error state. -/
theorem c6_date_input_transitions_witness :
    ((process_input env0 ctxD "skip").1.pending_due_date = none ∧
      (process_input env0 ctxD "skip").1.state = "confirmation") ∧
    (process_input { env0 with dateutil := dateutilOverflow } ctxD
      "99999999999999999999/1/1").1.state = "error" := by
  refine ⟨(c6_date_input_transitions env0 ctxD "skip" (Project.mk "p1" "Home")
    (by decide) (by decide)).1 (by decide), ?_⟩
  exact ((c6_date_input_transitions { env0 with dateutil := dateutilOverflow }
    ctxD "99999999999999999999/1/1" (Project.mk "p1" "Home") (by decide)
    (by decide)).2.2.2
    (PyExn.overflowError "Python int too large to convert to C long")
    (by decide) (by decide)).1


theorem subtask_fold_lengths (env : Env) (pid parent : String) (prio : Nat) :
    ∀ (acts : List String) (acc : List Task × List (String × String)),
      (acts.foldl (subtaskStep env pid parent prio) acc).1.length +
        (acts.foldl (subtaskStep env pid parent prio) acc).2.length =
      acc.1.length + acc.2.length + acts.length := by
  intro acts
  induction acts with
  | nil => intro acc; simp
  | cons a t ih =>
    intro acc
    rw [List.foldl_cons]
    rw [ih]
    unfold subtaskStep
    cases env.create_task (subTaskReq pid parent prio a) <;> simp <;> omega

theorem export_actions_eq (env : Env) (text pid : String) (title : Option String)
    (prio : Nat) (due : Option String) (labels : List String) :
    export_to_todoist env text pid title prio due labels true [] =
      (if extract_actions text = [] then .error "No actions found in text"
       else
        match env.create_task (mainTaskReq env pid title prio due labels) with
        | .error e => .error e
        | .ok main_task =>
          let sf := (extract_actions text).foldl
            (subtaskStep env pid main_task.id prio) ([], [])
          .ok { main_task := main_task, subtasks := sf.1, failures := sf.2,
                summary := { total_actions := (extract_actions text).length,
                             successful := sf.1.length, failed := sf.2.length } }) := by
  unfold export_to_todoist
  by_cases ht : text = ""
  · subst ht
    have : extract_actions "" = [] := rfl
    rw [this]
    rfl
  · simp only [ht, not_false_eq_true, decide_True, Bool.true_and, ne_eq,
      not_true_eq_false, decide_False, if_true]
    rfl

theorem export_ok_inv (env : Env) (text pid : String) (title : Option String)
    (prio : Nat) (due : Option String) (labels : List String) (r : ExportResult)
    (h : export_to_todoist env text pid title prio due labels true [] = .ok r) :
    r.summary.successful = r.subtasks.length ∧
    r.summary.failed = r.failures.length ∧
    r.summary.successful + r.summary.failed = r.summary.total_actions := by
  rw [export_actions_eq] at h
  by_cases hA : extract_actions text = []
  · rw [if_pos hA] at h
    exact absurd h (by simp)
  · rw [if_neg hA] at h
    cases hmt : env.create_task (mainTaskReq env pid title prio due labels) with
    | error e => rw [hmt] at h; exact absurd h (by simp)
    | ok mt =>
      rw [hmt] at h
      injection h with h
      rw [← h]
      refine ⟨rfl, rfl, ?_⟩
      show ((extract_actions text).foldl (subtaskStep env pid mt.id prio)
          ([], [])).1.length +
        ((extract_actions text).foldl (subtaskStep env pid mt.id prio)
          ([], [])).2.length = (extract_actions text).length
      rw [subtask_fold_lengths]
      simp

/-- C9: during the confirmation-state export a failed subtask creation is
recorded in the failures list and does not raise or force the error state: the
summary counts successes and failures, successes plus failures equal the
action count, and the conversation still completes whenever the main-task
creation succeeded; only a main-task exception or an empty action list makes
the export fail and drives the conversation to error. -/
theorem c9_subtask_failures_tolerated (env : Env) (ctx : ConversationContext)
    (text : String) (p : Project) (hst : ctx.state = "confirmation")
    (hsel : ctx.selected_project = some p)
    (haff : ["yes", "y", "create", "confirm", "do it"].contains (pyLower text) = true) :
    (∀ r, export_to_todoist env ctx.original_text p.id none ctx.task_priority
        ctx.pending_due_date ctx.labels true [] = .ok r →
      (process_input env ctx text).1.state = "completed" ∧
      (process_input env ctx text).2.result = some r ∧
      r.summary.successful = r.subtasks.length ∧
      r.summary.failed = r.failures.length ∧
      r.summary.successful + r.summary.failed = r.summary.total_actions) ∧
    (extract_actions ctx.original_text ≠ [] →
      ∀ mt, env.create_task (mainTaskReq env p.id none ctx.task_priority
          ctx.pending_due_date ctx.labels) = .ok mt →
        ∃ r, export_to_todoist env ctx.original_text p.id none ctx.task_priority
          ctx.pending_due_date ctx.labels true [] = .ok r) ∧
    (∀ e, export_to_todoist env ctx.original_text p.id none ctx.task_priority
        ctx.pending_due_date ctx.labels true [] = .error e →
      (process_input env ctx text).1.state = "error" ∧
      (process_input env ctx text).2.error =
        some ("Failed to create tasks: " ++ e)) ∧
    (extract_actions ctx.original_text = [] →
      export_to_todoist env ctx.original_text p.id none ctx.task_priority
        ctx.pending_due_date ctx.labels true [] =
        .error "No actions found in text") := by
  refine ⟨?_, ?_, ?_, ?_⟩
  · intro r hr
    obtain ⟨hs1, hs2, hs3⟩ := export_ok_inv _ _ _ _ _ _ _ _ hr
    refine ⟨?_, ?_, hs1, hs2, hs3⟩ <;>
      (unfold process_input
       simp only [hst]
       norm_num
       unfold _process_confirmation
       rw [haff]
       simp only [if_true, hsel]
       rw [hr]
       rfl)
  · intro hne mt hmt
    rw [export_actions_eq, if_neg hne, hmt]
    exact ⟨_, rfl⟩
  · intro e he
    unfold process_input
    simp only [hst]
    norm_num
    unfold _process_confirmation
    rw [haff]
    simp only [if_true, hsel]
    rw [he]
    exact ⟨rfl, rfl⟩
  · intro hempty
    rw [export_actions_eq, if_pos hempty]


/-- C9 witness: with a remote stub that fails the "buy milk" subtask and
accepts the rest, the confirmation turn completes, recording one success and
one failure out of two actions. -/
theorem c9_subtask_failures_tolerated_witness :
    (process_input env9 ctx9 "yes").1.state = "completed" ∧
    (∃ r, (process_input env9 ctx9 "yes").2.result = some r ∧
      r.summary.successful = 1 ∧ r.summary.failed = 1 ∧
      r.summary.total_actions = 2 ∧ r.failures = [("buy milk", "rate limited")]) := by
  have h := (c9_subtask_failures_tolerated env9 ctx9 "yes" (Project.mk "p1" "Home")
    (by decide) (by decide) (by decide)).1 _ rfl
  exact ⟨h.1, ⟨_, h.2.1, by decide, by decide, by decide, by decide⟩⟩

end TodoistVoiceHA
